import Mathlib

/- Shallow embedding of the blum-clicker detection pipeline.

   Sources embedded:
   - src/clicker/color_detector.py (class Detection: set_masks, modify_masks,
     is_bomb_near, detect_objects, detect_colors)
   - src/clicker/coordinate_controller.py (class Coordinate: get_coordinates,
     check_coordinates, check_directory)

   Modelling conventions:
   - A frame or mask is an Image: height, width and a total pixel function.
   - cv2.cvtColor with COLOR_BGR2HSV is a pointwise per-pixel conversion; it is
     modelled as mapping an arbitrary per-pixel function cvt over the frame
     (its numeric formula is irrelevant to every claim below).
   - cv2.findContours with RETR_EXTERNAL followed by cv2.boundingRect per
     contour is modelled as an arbitrary deterministic function
     fc : Image Nat -> List Rect from a mask to the list of external-contour
     bounding boxes in discovery order; the Python code consumes contours only
     through cv2.boundingRect, so this is exactly the interface it uses.
   - cv2.erode / cv2.dilate with kernel None and one iteration take the
     min / max over the default 3x3 neighbourhood clipped to the image
     (OpenCV's default morphology border value makes out-of-range neighbours
     neutral).
   - np.linalg.norm(bomb_center - object_center) < 100 on integer centers is
     equivalent to the squared distance being < 10000, since square root is
     exact and monotone there; is_bomb_near uses the squared form, and the
     theorem for C3 states the original strict Euclidean inequality via
     Real.sqrt.
   - int(self.height * 0.1) on a Python int height is modelled as height / 10
     (floor); the double rounding in height * 0.1 agrees with the exact floor
     for all screen-scale heights.
   - Python machine integers are unbounded, so Nat / Int carry them exactly;
     bounding-box fields and screen origins are non-negative (Nat), while
     width = end_x - start_x in get_coordinates can go negative and is Int. -/

namespace BlumClicker

/-- A pixel in 3-component color space (blue-green-red or hue-saturation-value). -/
abbrev Pixel : Type := Nat × Nat × Nat

/-- An image: dimensions plus a total pixel function (out-of-range arguments are
simply never consulted by in-range operations). -/
structure Image (α : Type) where
  height : Nat
  width : Nat
  pix : Nat → Nat → α

/-- Pointwise image map; models cv2.cvtColor seen as a per-pixel conversion. -/
def mapImage (f : α → β) (img : Image α) : Image β :=
  ⟨img.height, img.width, fun i j => f (img.pix i j)⟩

/-- Component-wise inclusive band membership test used by cv2.inRange. -/
def inBand (lo hi p : Pixel) : Bool :=
  decide (lo.1 ≤ p.1 ∧ p.1 ≤ hi.1 ∧ lo.2.1 ≤ p.2.1 ∧ p.2.1 ≤ hi.2.1 ∧
    lo.2.2 ≤ p.2.2 ∧ p.2.2 ≤ hi.2.2)

/-- cv2.inRange: 255 where the pixel lies inclusively inside the band, else 0. -/
def inRange (img : Image Pixel) (lo hi : Pixel) : Image Nat :=
  ⟨img.height, img.width, fun i j => if inBand lo hi (img.pix i j) then 255 else 0⟩

/-- Offsets of the default 3x3 structuring neighbourhood. -/
def offsets : List (Int × Int) :=
  [(-1, -1), (-1, 0), (-1, 1), (0, -1), (0, 0), (0, 1), (1, -1), (1, 0), (1, 1)]

/-- Values of the 3x3 neighbourhood of (i, j) that fall inside the image. -/
def nbhdVals (m : Image Nat) (i j : Nat) : List Nat :=
  offsets.filterMap (fun d =>
    let i' : Int := (i : Int) + d.1
    let j' : Int := (j : Int) + d.2
    if 0 ≤ i' ∧ i' < (m.height : Int) ∧ 0 ≤ j' ∧ j' < (m.width : Int) then
      some (m.pix i'.toNat j'.toNat)
    else none)

/-- cv2.erode with kernel None, one iteration: 3x3 neighbourhood minimum. -/
def erode (m : Image Nat) : Image Nat :=
  ⟨m.height, m.width, fun i j => (nbhdVals m i j).foldl min 255⟩

/-- cv2.dilate with kernel None, one iteration: 3x3 neighbourhood maximum. -/
def dilate (m : Image Nat) : Image Nat :=
  ⟨m.height, m.width, fun i j => (nbhdVals m i j).foldl max 0⟩

/-- HSV band bounds fixed in Detection.__init__. -/
def lower_pink : Pixel := (160, 20, 100)

def upper_pink : Pixel := (180, 255, 255)

def lower_green : Pixel := (40, 50, 50)

def upper_green : Pixel := (80, 255, 255)

def lower_bomb : Pixel := (0, 0, 50)

def upper_bomb : Pixel := (180, 50, 200)

/-- State of a Detection object: the region parameters set in __init__ and the
three mask attributes set by set_masks. -/
structure DetState where
  start_x : Nat
  start_y : Nat
  height : Nat
  width : Nat
  mask_pink : Image Nat
  mask_green : Image Nat
  mask_bomb : Image Nat

/-- Detection.modify_masks: erode then dilate each of the three masks, in that
order, one iteration each. -/
def modify_masks (s : DetState) : DetState :=
  { s with
    mask_pink := dilate (erode s.mask_pink)
    mask_green := dilate (erode s.mask_green)
    mask_bomb := dilate (erode s.mask_bomb) }

/-- Detection.set_masks: convert the frame to HSV once, threshold it into the
three masks, then call modify_masks. -/
def set_masks (cvt : Pixel → Pixel) (s : DetState) (frame : Image Pixel) : DetState :=
  let hsv := mapImage cvt frame
  modify_masks
    { s with
      mask_pink := inRange hsv lower_pink upper_pink
      mask_green := inRange hsv lower_green upper_green
      mask_bomb := inRange hsv lower_bomb upper_bomb }

/-- Bounding box as returned by cv2.boundingRect: non-negative origin and size. -/
structure Rect where
  x : Nat
  y : Nat
  w : Nat
  h : Nat
deriving DecidableEq

/-- Center of a bounding box, with Python floor halving (x + w // 2, y + h // 2). -/
def rectCenter (r : Rect) : Nat × Nat :=
  (r.x + r.w / 2, r.y + r.h / 2)

/-- Squared Euclidean distance between two integer points. -/
def distSq (a b : Nat × Nat) : Int :=
  ((a.1 : Int) - (b.1 : Int)) ^ 2 + ((a.2 : Int) - (b.2 : Int)) ^ 2

/-- Detection.is_bomb_near: re-extract the external contours of the bomb mask,
then report whether some contour's bounding-box center lies at Euclidean
distance strictly below 100 from the candidate's center (stated here on the
squared distance, which is equivalent on integer points). -/
def is_bomb_near (fc : Image Nat → List Rect) (s : DetState) (x y w h : Nat) : Bool :=
  let bomb_contours := fc s.mask_bomb
  let object_center := (x + w / 2, y + h / 2)
  bomb_contours.any (fun bomb_cnt =>
    decide (distSq (rectCenter bomb_cnt) object_center < 10000))

/-- Body of the loop of Detection.detect_objects for one contour: none when the
candidate is skipped (bomb near, or green-band rejection), otherwise the
emitted screen coordinate. -/
def admitDetection (fc : Image Nat → List Rect) (s : DetState) (color_name : String)
    (r : Rect) : Option (Nat × Nat) :=
  if is_bomb_near fc s r.x r.y r.w r.h then none
  else
    let center_x := r.x + r.w / 2
    let center_y := r.y + r.h / 2
    let screen_x := center_x + s.start_x
    let screen_y := center_y + s.start_y + 3
    let ten_percent_height := s.height / 10
    let top_limit := s.start_y + ten_percent_height
    let bottom_limit := s.start_y + s.height - ten_percent_height
    if color_name = "green" ∧ (center_y < top_limit ∨ center_y > bottom_limit) then none
    else some (screen_x, screen_y)

/-- Detection.detect_objects: extract external contours of the mask and append,
in discovery order, the screen position of every admitted candidate. -/
def detect_objects (fc : Image Nat → List Rect) (s : DetState) (mask : Image Nat)
    (color_name : String) : List (Nat × Nat) :=
  (fc mask).filterMap (admitDetection fc s color_name)

/-- Modelled from the spec: the behavior-preserving optimization it describes
for the Hazard Proximity Filter, absent from the source code, in which the
hazard blob centers are extracted from the hazard mask once per cycle and
reused for every candidate instead of re-running contour extraction inside
each is_bomb_near call. -/
def detect_objects_precomputed (fc : Image Nat → List Rect) (s : DetState)
    (mask : Image Nat) (color_name : String) : List (Nat × Nat) :=
  let bomb_centers := (fc s.mask_bomb).map rectCenter
  (fc mask).filterMap (fun r =>
    if bomb_centers.any (fun c => decide (distSq c (r.x + r.w / 2, r.y + r.h / 2) < 10000)) then
      none
    else
      let center_x := r.x + r.w / 2
      let center_y := r.y + r.h / 2
      let screen_x := center_x + s.start_x
      let screen_y := center_y + s.start_y + 3
      let ten_percent_height := s.height / 10
      let top_limit := s.start_y + ten_percent_height
      let bottom_limit := s.start_y + s.height - ten_percent_height
      if color_name = "green" ∧ (center_y < top_limit ∨ center_y > bottom_limit) then none
      else some (screen_x, screen_y))

/-- Result shape of Detection.detect_colors: either the single first pink
position, or the whole (possibly empty) list of green positions. -/
inductive DetectResult where
  | single (p : Nat × Nat)
  | many (ps : List (Nat × Nat))
deriving DecidableEq

/-- Detection.detect_colors: set the masks from the frame, run the pink
extractor; if it produced anything return the frame and its first element,
otherwise run the green extractor and return the frame and its whole list. -/
def detect_colors (fc : Image Nat → List Rect) (cvt : Pixel → Pixel) (s : DetState)
    (frame : Image Pixel) : DetState × Image Pixel × DetectResult :=
  let s1 := set_masks cvt s frame
  let pink_positions := detect_objects fc s1 s1.mask_pink "pink"
  match pink_positions with
  | p :: _ => (s1, frame, DetectResult.single p)
  | [] =>
    let green_positions := detect_objects fc s1 s1.mask_green "green"
    (s1, frame, DetectResult.many green_positions)

/-- Contents of window_coordinates.txt as the decouple Config reads it: the
four raw coordinate strings. -/
structure CoordFile where
  start_x : String
  end_x : String
  start_y : String
  end_y : String

/-- Python str.isdigit: non-empty and every character a digit (stated on the
character list of the string). -/
def isDigits (t : String) : Bool :=
  decide (t.data ≠ []) && t.data.all Char.isDigit

/-- Python int on a digit string. -/
def parseNat (t : String) : Nat :=
  t.data.foldl (fun n c => 10 * n + (c.toNat - 48)) 0

/-- Coordinate.check_coordinates: all four raw values must be digit strings. -/
def check_coordinates (f : CoordFile) : Bool :=
  isDigits f.start_x && isDigits f.end_x && isDigits f.start_y && isDigits f.end_y

/-- Coordinate.get_coordinates: none models the missing-file early return
(check_directory false) and is the input when the file does not exist; a
non-digit value also returns None; otherwise the parsed start corner together
with width = end_x - start_x and height = end_y - start_y, with no further
validation of the differences. -/
def get_coordinates (file : Option CoordFile) : Option (Int × Int × Int × Int) :=
  match file with
  | none => none
  | some f =>
    if check_coordinates f = false then none
    else
      let sx : Int := (parseNat f.start_x : Int)
      let ex : Int := (parseNat f.end_x : Int)
      let sy : Int := (parseNat f.start_y : Int)
      let ey : Int := (parseNat f.end_y : Int)
      some (sx, sy, ex - sx, ey - sy)

/- Concrete inputs used by witnesses below. -/

/-- Empty placeholder image standing for the mask attributes before set_masks
first assigns them (Python leaves them undefined until then). -/
def m0 : Image Nat := ⟨0, 0, fun _ _ => 0⟩

/-- A 100x100 region anchored at the screen origin. -/
def s0 : DetState := ⟨0, 0, 100, 100, m0, m0, m0⟩

/-- Frame whose every pixel lies in the pink band only. -/
def frameP : Image Pixel := ⟨100, 100, fun _ _ => (170, 100, 200)⟩

/-- Frame whose every pixel lies in the green band only. -/
def frameG : Image Pixel := ⟨100, 100, fun _ _ => (60, 100, 100)⟩

/-- Contour extractor returning two one-pixel blobs on an everywhere-255 mask. -/
def fcA : Image Nat → List Rect := fun m =>
  if m.pix 0 0 = 255 then [⟨10, 17, 0, 0⟩, ⟨30, 37, 0, 0⟩] else []

/-- Contour extractor returning two mid-band blobs on an everywhere-255 mask. -/
def fcB : Image Nat → List Rect := fun m =>
  if m.pix 0 0 = 255 then [⟨50, 57, 0, 0⟩, ⟨70, 77, 0, 0⟩] else []

/- General lemmas about the embedded operations. -/

theorem set_masks_start_x (cvt : Pixel → Pixel) (s : DetState) (frame : Image Pixel) :
    (set_masks cvt s frame).start_x = s.start_x := rfl

theorem set_masks_start_y (cvt : Pixel → Pixel) (s : DetState) (frame : Image Pixel) :
    (set_masks cvt s frame).start_y = s.start_y := rfl

theorem set_masks_set (cvt : Pixel → Pixel) (s : DetState) (frame : Image Pixel) :
    set_masks cvt (set_masks cvt s frame) frame = set_masks cvt s frame := by
  cases s
  rfl

theorem detect_colors_fst (fc : Image Nat → List Rect) (cvt : Pixel → Pixel)
    (s : DetState) (frame : Image Pixel) :
    (detect_colors fc cvt s frame).1 = set_masks cvt s frame := by
  cases h : detect_objects fc (set_masks cvt s frame) (set_masks cvt s frame).mask_pink "pink" <;>
    simp [detect_colors, h]

theorem detect_colors_congr_state (fc : Image Nat → List Rect) (cvt : Pixel → Pixel)
    {s t : DetState} (frame : Image Pixel)
    (h : set_masks cvt s frame = set_masks cvt t frame) :
    detect_colors fc cvt s frame = detect_colors fc cvt t frame := by
  unfold detect_colors
  rw [h]

theorem any_map_general {α β : Type} (f : α → β) (p : β → Bool) (l : List α) :
    (l.map f).any p = l.any (fun a => p (f a)) := by
  induction l with
  | nil => rfl
  | cons a l ih => simp [List.any, ih]

/-- Whatever the loop body of detect_objects admits carries no bomb nearby and
is the candidate's bounding-box center translated by the region origin plus
the fixed (0, 3) bias. -/
theorem admitDetection_some (fc : Image Nat → List Rect) (s : DetState)
    (color_name : String) (r : Rect) (p : Nat × Nat)
    (h : admitDetection fc s color_name r = some p) :
    is_bomb_near fc s r.x r.y r.w r.h = false ∧
    p = (r.x + r.w / 2 + s.start_x, r.y + r.h / 2 + s.start_y + 3) := by
  unfold admitDetection at h
  by_cases hb : is_bomb_near fc s r.x r.y r.w r.h
  · simp [hb] at h
  · rw [if_neg hb] at h
    refine ⟨by simpa using hb, ?_⟩
    by_cases hg : color_name = "green" ∧
        (r.y + r.h / 2 < s.start_y + s.height / 10 ∨
          r.y + r.h / 2 > s.start_y + s.height - s.height / 10)
    · simp only [if_pos hg] at h
      exact absurd h (by simp)
    · simp only [if_neg hg] at h
      exact (Option.some_inj.mp h).symm

/-- Every emitted position of detect_objects arises from some extracted contour
that passed the hazard filter, via the origin translation plus (0, 3). -/
theorem detect_objects_mem (fc : Image Nat → List Rect) (s : DetState)
    (mask : Image Nat) (color_name : String) (p : Nat × Nat)
    (hp : p ∈ detect_objects fc s mask color_name) :
    ∃ r ∈ fc mask, is_bomb_near fc s r.x r.y r.w r.h = false ∧
      p = (r.x + r.w / 2 + s.start_x, r.y + r.h / 2 + s.start_y + 3) := by
  unfold detect_objects at hp
  rcases List.mem_filterMap.mp hp with ⟨r, hr, hsome⟩
  exact ⟨r, hr, admitDetection_some fc s color_name r p hsome⟩

/-- C2: whenever the pink extractor's list is non-empty, detect_colors returns
exactly its first element as a single position — the green extractor's result
is not on the output path — and whenever the pink list is empty it returns the
whole (possibly empty) green list. -/
theorem claim_C2_selection_policy (fc : Image Nat → List Rect) (cvt : Pixel → Pixel)
    (s : DetState) (frame : Image Pixel) :
    (∀ p rest,
      detect_objects fc (set_masks cvt s frame) (set_masks cvt s frame).mask_pink "pink" =
        p :: rest →
      (detect_colors fc cvt s frame).2.2 = DetectResult.single p) ∧
    (detect_objects fc (set_masks cvt s frame) (set_masks cvt s frame).mask_pink "pink" = [] →
      (detect_colors fc cvt s frame).2.2 =
        DetectResult.many
          (detect_objects fc (set_masks cvt s frame) (set_masks cvt s frame).mask_green
            "green")) := by
  constructor
  · intro p rest h
    simp [detect_colors, h]
  · intro h
    simp [detect_colors, h]

/-- C2 witness: a frame of pink-band pixels whose mask yields blobs at
positions (10, 20) and (30, 40) makes detect_colors output the single first
pair (10, 20); a frame of green-band pixels with an empty pink mask and green
blobs at (50, 60) and (70, 80) makes it output that whole list. -/
theorem claim_C2_selection_policy_witness :
    (detect_colors fcA id s0 frameP).2.2 = DetectResult.single (10, 20) ∧
    (detect_colors fcB id s0 frameG).2.2 = DetectResult.many [(50, 60), (70, 80)] :=
  ⟨(claim_C2_selection_policy fcA id s0 frameP).1 (10, 20) [(30, 40)] (by decide),
    by
      rw [(claim_C2_selection_policy fcB id s0 frameG).2 (by decide)]
      decide⟩

/-- C6: detect_colors is deterministic in the Frame and the Region: running it
a second time, from the state the first run left behind, returns exactly the
first run's result (masks are recomputed from the frame on every call, so no
state drifts across calls). -/
theorem claim_C6_idempotent (fc : Image Nat → List Rect) (cvt : Pixel → Pixel)
    (s : DetState) (frame : Image Pixel) :
    detect_colors fc cvt ((detect_colors fc cvt s frame).1) frame =
      detect_colors fc cvt s frame := by
  rw [detect_colors_fst]
  exact detect_colors_congr_state fc cvt frame (set_masks_set cvt s frame)

/-- C7: extracting the hazard blob centers once per cycle and reusing them for
every candidate (detect_objects_precomputed, modelled from the spec) produces
exactly the output of the implemented scheme that re-extracts the hazard
contours inside every is_bomb_near call — the hazard mask is fixed for the
cycle, so both schemes consult the same centers. -/
theorem claim_C7_precompute_refines (fc : Image Nat → List Rect) (s : DetState)
    (mask : Image Nat) (color_name : String) :
    detect_objects_precomputed fc s mask color_name =
      detect_objects fc s mask color_name := by
  simp only [detect_objects_precomputed, detect_objects]
  congr 1
  funext r
  simp only [admitDetection, is_bomb_near]
  rw [any_map_general]

/-- C10: detect_colors hands back the input frame itself, untouched, as the
first component of its returned pair in both branches (in this embedding every
pipeline stage builds fresh images, so the input frame is never written). -/
theorem claim_C10_frame_returned (fc : Image Nat → List Rect) (cvt : Pixel → Pixel)
    (s : DetState) (frame : Image Pixel) :
    (detect_colors fc cvt s frame).2.1 = frame := by
  cases h : detect_objects fc (set_masks cvt s frame) (set_masks cvt s frame).mask_pink
      "pink" <;>
    simp [detect_colors, h]

/-- Contour extractor returning one 4x4 blob on an everywhere-255 mask. -/
def fc4 : Image Nat → List Rect := fun m =>
  if m.pix 0 0 = 255 then [⟨10, 17, 4, 4⟩] else []

/-- C4: every position emitted by detect_objects is the candidate's
bounding-box center translated by the region origin plus the fixed (0, 3)
bias, and a frame whose pink mask yields exactly one blob while the bomb mask
yields none makes detect_colors emit exactly that one translated detection. -/
theorem claim_C4_translation (fc : Image Nat → List Rect) (cvt : Pixel → Pixel)
    (s : DetState) (frame : Image Pixel) :
    (∀ (mask : Image Nat) (color_name : String) (p : Nat × Nat),
      p ∈ detect_objects fc (set_masks cvt s frame) mask color_name →
      ∃ r ∈ fc mask, p = (r.x + r.w / 2 + s.start_x, r.y + r.h / 2 + s.start_y + 3)) ∧
    (∀ r : Rect, fc (set_masks cvt s frame).mask_pink = [r] →
      fc (set_masks cvt s frame).mask_bomb = [] →
      (detect_colors fc cvt s frame).2.2 =
        DetectResult.single (r.x + r.w / 2 + s.start_x, r.y + r.h / 2 + s.start_y + 3)) := by
  constructor
  · intro mask color_name p hp
    rcases detect_objects_mem fc (set_masks cvt s frame) mask color_name p hp with
      ⟨r, hr, _, hform⟩
    exact ⟨r, hr, hform⟩
  · intro r hpink hbomb
    have hpos : detect_objects fc (set_masks cvt s frame)
        (set_masks cvt s frame).mask_pink "pink" =
        [(r.x + r.w / 2 + s.start_x, r.y + r.h / 2 + s.start_y + 3)] := by
      simp [detect_objects, hpink, admitDetection, is_bomb_near, hbomb]
      exact ⟨set_masks_start_x cvt s frame, set_masks_start_y cvt s frame⟩
    simp [detect_colors, hpos]

/-- C4 witness: a uniformly pink frame whose pink mask carries the single blob
(10, 17, 4, 4) and an empty bomb mask produces the single detection
(10 + 2 + 0, 17 + 2 + 0 + 3) = (12, 22). -/
theorem claim_C4_translation_witness :
    (detect_colors fc4 id s0 frameP).2.2 =
      DetectResult.single (10 + 4 / 2 + s0.start_x, 17 + 4 / 2 + s0.start_y + 3) :=
  (claim_C4_translation fc4 id s0 frameP).2 ⟨10, 17, 4, 4⟩ (by decide) (by decide)

/-- Region and mask used by the C9 witness. -/
def s9 : DetState := ⟨5, 7, 100, 100, ⟨1, 1, fun _ _ => 0⟩, ⟨1, 1, fun _ _ => 0⟩,
  ⟨1, 1, fun _ _ => 0⟩⟩

def mask9 : Image Nat := ⟨100, 100, fun _ _ => 0⟩

/-- Contour extractor returning one blob on 100-row images and nothing on the
one-row bomb mask of s9. -/
def fc9 : Image Nat → List Rect := fun m =>
  if m.height = 100 then [⟨10, 10, 2, 2⟩] else []

/-- C9: when the mask has the region's dimensions and every extracted bounding
box is non-degenerate and fits inside the mask (as cv2.boundingRect on a mask
guarantees), every emitted position lies inside the monitored rectangle
shifted by the +3 vertical bias: start_x through start_x + width - 1
horizontally and start_y + 3 through start_y + height + 2 vertically. -/
theorem claim_C9_detections_in_region (fc : Image Nat → List Rect) (s : DetState)
    (mask : Image Nat) (color_name : String)
    (hdim : mask.height = s.height ∧ mask.width = s.width)
    (hrect : ∀ r ∈ fc mask,
      r.x + r.w ≤ mask.width ∧ r.y + r.h ≤ mask.height ∧ 0 < r.w ∧ 0 < r.h) :
    ∀ p ∈ detect_objects fc s mask color_name,
      s.start_x ≤ p.1 ∧ p.1 ≤ s.start_x + s.width - 1 ∧
      s.start_y + 3 ≤ p.2 ∧ p.2 ≤ s.start_y + s.height + 2 := by
  intro p hp
  rcases detect_objects_mem fc s mask color_name p hp with ⟨r, hr, _, hform⟩
  rcases hrect r hr with ⟨hxw, hyh, hw, hh⟩
  have hw2 : r.w / 2 < r.w := Nat.div_lt_self hw one_lt_two
  have hh2 : r.h / 2 < r.h := Nat.div_lt_self hh one_lt_two
  rcases hdim with ⟨hH, hW⟩
  subst hform
  constructor
  · exact Nat.le_add_left s.start_x (r.x + r.w / 2)
  · refine ⟨by omega, by omega, by omega⟩

/-- C9 witness: with region origin (5, 7), size 100 x 100 and the single blob
(10, 10, 2, 2), the emitted position (16, 21) satisfies all four bounds. -/
theorem claim_C9_detections_in_region_witness :
    s9.start_x ≤ (16, 21).1 ∧ (16, 21).1 ≤ s9.start_x + s9.width - 1 ∧
    s9.start_y + 3 ≤ (16, 21).2 ∧ (16, 21).2 ≤ s9.start_y + s9.height + 2 :=
  claim_C9_detections_in_region fc9 s9 mask9 "pink" (by decide) (by decide) (16, 21)
    (by decide)

/-- Since all centers are integer points, comparing the exact Euclidean
distance with 100 is the same as comparing the squared distance with 10000. -/
theorem sqrt_cast_lt_hundred (n : Int) : Real.sqrt ((n : ℝ)) < 100 ↔ n < 10000 := by
  rw [Real.sqrt_lt' (by norm_num : (0 : ℝ) < 100)]
  rw [show ((100 : ℝ)) ^ 2 = (((10000 : Int) : ℝ)) by norm_num]
  exact Int.cast_lt

/-- Bomb mask and extractor used by the C3 witness: one 2x2 bomb blob whose
center (1, 1) is within distance 100 of the origin. -/
def mBomb3 : Image Nat := ⟨3, 3, fun _ _ => 0⟩

def sC3 : DetState := ⟨0, 0, 100, 100, m0, m0, mBomb3⟩

def fcC3 : Image Nat → List Rect := fun m =>
  if m.height = 3 then [⟨0, 0, 2, 2⟩] else []

/-- C3: is_bomb_near holds exactly when some external hazard contour's
bounding-box center lies at Euclidean distance strictly below 100 pixels from
the candidate's center, and every position detect_objects emits (for either
category) comes from a candidate on which is_bomb_near is false. -/
theorem claim_C3_hazard_filter (fc : Image Nat → List Rect) (s : DetState)
    (x y w h : Nat) (mask : Image Nat) (color_name : String) :
    (is_bomb_near fc s x y w h = true ↔
      ∃ b ∈ fc s.mask_bomb,
        Real.sqrt ((distSq (rectCenter b) (x + w / 2, y + h / 2) : Int) : ℝ) < 100) ∧
    (∀ p ∈ detect_objects fc s mask color_name, ∃ r ∈ fc mask,
      is_bomb_near fc s r.x r.y r.w r.h = false ∧
      p = (r.x + r.w / 2 + s.start_x, r.y + r.h / 2 + s.start_y + 3)) := by
  constructor
  · unfold is_bomb_near
    simp only [List.any_eq_true, decide_eq_true_eq]
    exact exists_congr fun b =>
      and_congr_right fun _ => (sqrt_cast_lt_hundred _).symm
  · exact fun p hp => detect_objects_mem fc s mask color_name p hp

/-- C3 witness: a 2x2 bomb blob with center (1, 1) makes is_bomb_near true for
a candidate centered at the origin, since sqrt 2 < 100. -/
theorem claim_C3_hazard_filter_witness : is_bomb_near fcC3 sC3 0 0 0 0 = true :=
  (claim_C3_hazard_filter fcC3 sC3 0 0 0 0 m0 "pink").1.mpr
    ⟨⟨0, 0, 2, 2⟩, by decide, by
      rw [show distSq (rectCenter ⟨0, 0, 2, 2⟩) (0 + 0 / 2, 0 + 0 / 2) = (2 : Int) by decide]
      rw [sqrt_cast_lt_hundred]
      decide⟩

/- Binary-value preservation for the morphology passes. -/

theorem foldl_min_binary (l : List Nat) (hl : ∀ v ∈ l, v = 0 ∨ v = 255) :
    ∀ a, a = 0 ∨ a = 255 → (l.foldl min a = 0 ∨ l.foldl min a = 255) := by
  induction l with
  | nil => intro a ha; exact ha
  | cons v l ih =>
    intro a ha
    have hv := hl v (List.mem_cons_self v l)
    refine ih (fun u hu => hl u (List.mem_cons_of_mem v hu)) (min a v) ?_
    rcases ha with ha | ha <;> rcases hv with hv | hv <;> rw [ha, hv] <;> simp

theorem foldl_max_binary (l : List Nat) (hl : ∀ v ∈ l, v = 0 ∨ v = 255) :
    ∀ a, a = 0 ∨ a = 255 → (l.foldl max a = 0 ∨ l.foldl max a = 255) := by
  induction l with
  | nil => intro a ha; exact ha
  | cons v l ih =>
    intro a ha
    have hv := hl v (List.mem_cons_self v l)
    refine ih (fun u hu => hl u (List.mem_cons_of_mem v hu)) (max a v) ?_
    rcases ha with ha | ha <;> rcases hv with hv | hv <;> rw [ha, hv] <;> simp

theorem nbhdVals_binary (m : Image Nat)
    (hm : ∀ i j, m.pix i j = 0 ∨ m.pix i j = 255) (i j : Nat) :
    ∀ v ∈ nbhdVals m i j, v = 0 ∨ v = 255 := by
  intro v hv
  rcases List.mem_filterMap.mp hv with ⟨d, _, hd⟩
  dsimp only at hd
  split at hd
  · cases Option.some_inj.mp hd
    exact hm _ _
  · exact absurd hd (by simp)

theorem inRange_binary (img : Image Pixel) (lo hi : Pixel) (i j : Nat) :
    (inRange img lo hi).pix i j = 0 ∨ (inRange img lo hi).pix i j = 255 := by
  by_cases hb : inBand lo hi (img.pix i j) = true <;> simp [inRange, hb]

theorem erode_binary (m : Image Nat)
    (hm : ∀ i j, m.pix i j = 0 ∨ m.pix i j = 255) (i j : Nat) :
    (erode m).pix i j = 0 ∨ (erode m).pix i j = 255 :=
  foldl_min_binary (nbhdVals m i j) (nbhdVals_binary m hm i j) 255 (Or.inr rfl)

theorem dilate_binary (m : Image Nat)
    (hm : ∀ i j, m.pix i j = 0 ∨ m.pix i j = 255) (i j : Nat) :
    (dilate m).pix i j = 0 ∨ (dilate m).pix i j = 255 :=
  foldl_max_binary (nbhdVals m i j) (nbhdVals_binary m hm i j) 0 (Or.inl rfl)

/-- C8: set_masks builds each of the three masks by inclusive thresholding of
the single converted frame against that band's fixed bounds, then exactly one
erosion followed by exactly one dilation in that order; each resulting mask is
binary (every pixel 0 or 255) and has the input frame's dimensions. -/
theorem claim_C8_mask_builder (cvt : Pixel → Pixel) (s : DetState) (frame : Image Pixel) :
    ((set_masks cvt s frame).mask_pink =
        dilate (erode (inRange (mapImage cvt frame) lower_pink upper_pink)) ∧
      (set_masks cvt s frame).mask_green =
        dilate (erode (inRange (mapImage cvt frame) lower_green upper_green)) ∧
      (set_masks cvt s frame).mask_bomb =
        dilate (erode (inRange (mapImage cvt frame) lower_bomb upper_bomb))) ∧
    (∀ i j,
      ((set_masks cvt s frame).mask_pink.pix i j = 0 ∨
        (set_masks cvt s frame).mask_pink.pix i j = 255) ∧
      ((set_masks cvt s frame).mask_green.pix i j = 0 ∨
        (set_masks cvt s frame).mask_green.pix i j = 255) ∧
      ((set_masks cvt s frame).mask_bomb.pix i j = 0 ∨
        (set_masks cvt s frame).mask_bomb.pix i j = 255)) ∧
    ((set_masks cvt s frame).mask_pink.height = frame.height ∧
      (set_masks cvt s frame).mask_pink.width = frame.width ∧
      (set_masks cvt s frame).mask_green.height = frame.height ∧
      (set_masks cvt s frame).mask_green.width = frame.width ∧
      (set_masks cvt s frame).mask_bomb.height = frame.height ∧
      (set_masks cvt s frame).mask_bomb.width = frame.width) := by
  refine ⟨⟨rfl, rfl, rfl⟩, ?_, rfl, rfl, rfl, rfl, rfl, rfl⟩
  intro i j
  exact ⟨dilate_binary _ (erode_binary _ (inRange_binary (mapImage cvt frame)
      lower_pink upper_pink)) i j,
    dilate_binary _ (erode_binary _ (inRange_binary (mapImage cvt frame)
      lower_green upper_green)) i j,
    dilate_binary _ (erode_binary _ (inRange_binary (mapImage cvt frame)
      lower_bomb upper_bomb)) i j⟩

/- Concrete inputs exhibiting the green-band coordinate-frame slip (C1). -/

def mGreenC1 : Image Nat := ⟨1, 1, fun _ _ => 0⟩

def mBombC1 : Image Nat := ⟨2, 2, fun _ _ => 0⟩

def fcC1 : Image Nat → List Rect := fun m =>
  if m.height = 1 then [⟨90, 40, 20, 20⟩] else []

def sC1 : DetState := ⟨0, 1000, 100, 200, mBombC1, mGreenC1, mBombC1⟩

/-- C1: the code compares the mask-local vertical center against limits that
are shifted by the region origin start_y, so for the region with origin
(0, 1000) and height 100, a green candidate whose mask-local vertical center
50 sits at 50 percent of the region height — inside the middle 80 percent
band, where the claim and the spec admit it — is nevertheless discarded:
detect_objects returns the empty list, with no hazard anywhere. -/
theorem claim_C1_green_band_shifted :
    detect_objects fcC1 sC1 mGreenC1 "green" = [] ∧
    sC1.height / 10 ≤ 40 + 20 / 2 ∧ 40 + 20 / 2 ≤ sC1.height - sC1.height / 10 := by
  decide

/-- Coordinates file with end_x smaller than start_x (C5). -/
def fileC5 : CoordFile := ⟨"10", "5", "0", "7"⟩

/-- C5 counterexample: all four values are digit strings, yet get_coordinates
returns a tuple whose width component end_x - start_x = 5 - 10 = -5 is not
positive, so the returned region is not validated as the claim states. -/
theorem claim_C5_counterexample :
    get_coordinates (some fileC5) = some (10, 0, -5, 7) ∧ ¬ (0 < (-5 : Int)) := by
  decide

/-- C5 (amended): get_coordinates returns none when the file is missing or
some value is not a digit string; when it returns a tuple, the four raw values
were digit strings (hence the parsed corners are non-negative) and the last
two components are exactly end_x - start_x and end_y - start_y, with no
positivity validation. -/
theorem claim_C5_get_coordinates (f : CoordFile) :
    (get_coordinates none = none) ∧
    (check_coordinates f = false → get_coordinates (some f) = none) ∧
    (∀ a b cw ch : Int, get_coordinates (some f) = some (a, b, cw, ch) →
      check_coordinates f = true ∧ 0 ≤ a ∧ 0 ≤ b ∧
      cw = (parseNat f.end_x : Int) - (parseNat f.start_x : Int) ∧
      ch = (parseNat f.end_y : Int) - (parseNat f.start_y : Int)) := by
  refine ⟨rfl, ?_, ?_⟩
  · intro h
    simp [get_coordinates, h]
  · intro a b cw ch h
    rw [show get_coordinates (some f) =
        if check_coordinates f = false then none
        else some ((parseNat f.start_x : Int), (parseNat f.start_y : Int),
          (parseNat f.end_x : Int) - (parseNat f.start_x : Int),
          (parseNat f.end_y : Int) - (parseNat f.start_y : Int)) from rfl] at h
    by_cases hc : check_coordinates f = false
    · rw [if_pos hc] at h
      exact absurd h (by simp)
    · rw [if_neg hc] at h
      have hct : check_coordinates f = true := by
        revert hc
        cases check_coordinates f <;> simp
      have h' := Option.some_inj.mp h
      simp only [Prod.mk.injEq] at h'
      obtain ⟨ha, hb, hcw, hch⟩ := h'
      subst ha
      subst hb
      subst hcw
      subst hch
      exact ⟨hct, Int.natCast_nonneg _, Int.natCast_nonneg _, rfl, rfl⟩

/-- Coordinates file with an empty start_x value (C5 witness input). -/
def fileC5e : CoordFile := ⟨"", "1", "2", "3"⟩

/-- C5 witness: a file with an empty start_x value is rejected with none, and
the tuple returned on fileC5 satisfies the amended description (digit-string
values, non-negative corners, unvalidated differences). -/
theorem claim_C5_get_coordinates_witness :
    get_coordinates (some fileC5e) = none ∧
    (check_coordinates fileC5 = true ∧ (0 : Int) ≤ 10 ∧ (0 : Int) ≤ 0 ∧
      (-5 : Int) = (parseNat fileC5.end_x : Int) - (parseNat fileC5.start_x : Int) ∧
      (7 : Int) = (parseNat fileC5.end_y : Int) - (parseNat fileC5.start_y : Int)) :=
  ⟨(claim_C5_get_coordinates fileC5e).2.1 (by decide),
    (claim_C5_get_coordinates fileC5).2.2 10 0 (-5) 7 (by decide)⟩

end BlumClicker
